import Mathlib

/-!
Verification of the Twicks inventory/sales tracker (src/twicks.js and the
two remote backup endpoints src/api/twicks-backup.js, src/unnamed/part_000).

The JavaScript code is shallowly embedded: currency amounts are rationals,
string fields stay strings, missing string fields are the empty string
(JS `x || d` defaulting is embedded via `jsOr`), optional numeric fields are
`Option` values (`none` models JS `null`/`undefined`/NaN at the use sites
where the source checks for them), and the results of platform calls that
can throw (localStorage access, JSON.parse) appear as explicit `JsCall`
outcomes.  Collections are lists in the order the code maintains them
(`unshift` prepends).  Impure id/timestamp generation (`Util.uid()`,
`Date.now()`) is passed in as parameters.
-/

/-- JS `a || b` for strings: the empty string is falsy. -/
def jsOr (a b : String) : String := if a = "" then b else a

/-- Outcome of a JS call that can throw. -/
inductive JsCall (α : Type) where
  | throws
  | returns (v : α)
deriving DecidableEq

/-! ## Key-Value Persistence (Storage.load, src/twicks.js lines 157-179)

`LoadEnv` packages, for one key, what the platform would answer:
`localGet` is the `localStorage.getItem` outcome (`returns none` = key
absent), `parse` is the `JSON.parse` outcome on a raw string
(`returns none` = the JSON text `"null"`), `idb` is the `idbGet` result
(`none` = no database / error / key absent, all of which resolve to
`undefined` in lines 134-144). -/
structure LoadEnv (α : Type) where
  localGet : JsCall (Option String)
  parse : String → JsCall (Option α)
  idb : Option α

/-- `Storage.load(key, fallback)`, src/twicks.js lines 158-172: try
localStorage; if the raw value is present, JSON.parse it, returning the
fallback on a parse error or a parsed `null`; if getItem throws or the key
is absent, fall through to `idbGet` and return its value `?? fallback`. -/
def Storage_load {α : Type} (env : LoadEnv α) (fallback : α) : α :=
  match env.localGet with
  | .returns (some raw) =>
    match env.parse raw with
    | .returns (some parsed) => parsed
    | .returns none => fallback
    | .throws => fallback
  | .returns none =>
    match env.idb with
    | some v => v
    | none => fallback
  | .throws =>
    match env.idb with
    | some v => v
    | none => fallback

/-! ## Storage.save and the auto-backup dirty hook (lines 173-179, 736-745, 807-827)

`SaveState` models the stores plus the observable effects of
`AutoBackup.markDirty`: the dirty flag and how many times `markDirty` ran. -/
structure SaveState where
  localThrows : Bool
  localStore : List (String × String)
  idbStore : List (String × String)
  dirty : Bool
  dirtyMarks : Nat
deriving DecidableEq

/-- Upsert into an association list (models both `localStorage.setItem`
and the IndexedDB `put`). -/
def storePut (store : List (String × String)) (key val : String) :
    List (String × String) :=
  if store.any (fun kv => kv.1 = key) then
    store.map (fun kv => if kv.1 = key then (key, val) else kv)
  else
    (key, val) :: store

/-- `AutoBackup.markDirty()`, src/twicks.js lines 737-740 (the idle-timer
scheduling has no effect on the store state and is not modelled). -/
def markDirty (s : SaveState) : SaveState :=
  { s with dirty := true, dirtyMarks := s.dirtyMarks + 1 }

/-- The original `Storage.save(key, val)`, lines 173-179: write to
localStorage; only if that throws, write to the IndexedDB store. -/
def Storage_save (key val : String) (s : SaveState) : SaveState :=
  if s.localThrows then
    { s with idbStore := storePut s.idbStore key val }
  else
    { s with localStore := storePut s.localStore key val }

/-- One installation of `patchStorageSaveForAutoBackup` (lines 808-816):
wrap the current save so that after it completes `AutoBackup.markDirty()`
is invoked. -/
def patchStorageSaveForAutoBackup
    (save : String → String → SaveState → SaveState) :
    String → String → SaveState → SaveState :=
  fun key val s => markDirty (save key val s)

/-- The save function actually installed at page load: the patch IIFE
appears twice in the source (lines 808-816 and again lines 818-827), and
each run wraps whatever `Storage.save` currently is, so the final function
is the original save wrapped twice. -/
def installedSave : String → String → SaveState → SaveState :=
  patchStorageSaveForAutoBackup (patchStorageSaveForAutoBackup Storage_save)

/-! ## Ledger data model (src/twicks.js)

Field names follow the JS objects.  `InventoryItem.sell` is an `Option`
because the list-for-sale handler checks `item.sell != null` (line 1207);
all other currency fields are plain rationals with `0` standing for the
JS defaults applied at every read (`Number(x || 0)`).  A missing string
field is the empty string, matching the `(x || "")` reads in the source. -/
structure InventoryItem where
  id : String
  seller : String
  name : String
  buy : ℚ
  ship : ℚ
  sell : Option ℚ
  image : String
  createdAt : Nat
deriving DecidableEq

/-- A for-sale listing (created at src/twicks.js lines 1210-1219). -/
structure Listing where
  id : String
  name : String
  price : ℚ
  buy : ℚ
  ship_in : ℚ
  seller : String
  image : String
  createdAt : Nat
deriving DecidableEq

/-- A sold record: the listing object extended in place with
`buyer`, `soldAt`, `status` by the mark-sold handler (lines 1805-1808).
`status` is a raw string because the source treats any value other than
`"Paid"` (including a missing one, via `status || "Pending"`) as pending. -/
structure SoldRecord where
  id : String
  name : String
  price : ℚ
  buy : ℚ
  ship_in : ℚ
  seller : String
  image : String
  createdAt : Nat
  buyer : String
  soldAt : Nat
  status : String
deriving DecidableEq

/-- A cash ledger entry (created at lines 2286-2292, 2464-2470, 2490-2496). -/
structure CashEntry where
  id : String
  source : String
  amount : ℚ
  note : String
  createdAt : Nat
deriving DecidableEq

/-- The cash-source select offers exactly these three options
(lines 2253-2257 and 2437-2440). -/
inductive CashSource where
  | GCash
  | SeaBank
  | Cash
deriving DecidableEq

/-- The string value the select option carries. -/
def CashSource.str : CashSource → String
  | .GCash => "GCash"
  | .SeaBank => "SeaBank"
  | .Cash => "Cash"

/-- The load-visible state of all persisted ledger collections plus the
two "last used" pointers (localStorage scalars, `none` = key absent). -/
structure LedgerState where
  bought : List InventoryItem
  forsale : List Listing
  sold : List SoldRecord
  cash : List CashEntry
  sellers : List String
  buyers : List String
  sellerLast : Option String
  buyerLast : Option String
deriving DecidableEq

/-- The empty ledger (every `Storage.load` falls back to `[]`). -/
def emptyLedger : LedgerState :=
  { bought := [], forsale := [], sold := [], cash := [],
    sellers := [], buyers := [], sellerLast := none, buyerLast := none }

/-- JS `findIndex` + `splice(idx, 1)`: remove the first element matching
`p`, returning it and the remainder; `none` when `findIndex` gives -1. -/
def extractFirst {α : Type} (p : α → Bool) : List α → Option (α × List α)
  | [] => none
  | x :: xs =>
    if p x then some (x, xs)
    else (extractFirst p xs).map (fun yl => (yl.1, x :: yl.2))

/-- JS `Set.add` on a duplicate-free list: appending preserves the
insertion order `Array.from` would produce. -/
def insertUniq (l : List String) (x : String) : List String :=
  if x ∈ l then l else l ++ [x]

/-! ## Intake and stage transitions -/

/-- The item built by the `addBoughtBtn` handler (lines 1342-1351):
`ship: Number(isNaN(ship) ? 0 : ship)` and
`sell: Number(isNaN(sell) ? buy : sell)` — `none` models a NaN parse of
the corresponding input field. -/
def mkBoughtItem (id seller name : String) (buy : ℚ) (ship sellInput : Option ℚ)
    (image : String) (t : Nat) : InventoryItem :=
  { id := id, seller := seller, name := name, buy := buy,
    ship := ship.getD 0, sell := some (sellInput.getD buy),
    image := image, createdAt := t }

/-- `addBoughtBtn` handler effect on state (lines 1354-1358): prepend the
item and remember the seller as last used. -/
def addBought (st : LedgerState) (id seller name : String) (buy : ℚ)
    (ship sellInput : Option ℚ) (image : String) (t : Nat) : LedgerState :=
  { st with
    bought := mkBoughtItem id seller name buy ship sellInput image t :: st.bought,
    sellerLast := some seller }

/-- The listing built when an inventory item is listed for sale
(lines 1206-1219): price defaults to `item.sell` when non-null, else
`buy + ship`; `buy` carries the acquisition cost `buy + ship`. -/
def mkListingFromItem (item : InventoryItem) (newId : String) (now : Nat) :
    Listing :=
  { id := newId,
    name := jsOr item.name "Card",
    price := match item.sell with | some s => s | none => item.buy + item.ship,
    buy := item.buy + item.ship,
    ship_in := item.ship,
    seller := item.seller,
    image := item.image,
    createdAt := now }

/-- The `.list-for-sale` click handler (lines 1191-1225): find the item by
id (alert + no-op when absent), remove it from `bought`, prepend the new
listing with a fresh id to `forsale`. -/
def listForSale (st : LedgerState) (id newId : String) (now : Nat) :
    LedgerState :=
  match extractFirst (fun x => x.id = id) st.bought with
  | none => st
  | some (item, rest) =>
    { st with
      bought := rest,
      forsale := mkListingFromItem item newId now :: st.forsale }

/-- The object moved into `sold` by the `.mark-sold` handler
(lines 1805-1808): the spliced listing itself, mutated in place — the id
is the listing's id, no fresh id is generated. -/
def soldFromListing (it : Listing) (buyer : String) (now : Nat) : SoldRecord :=
  { id := it.id, name := it.name, price := it.price, buy := it.buy,
    ship_in := it.ship_in, seller := it.seller, image := it.image,
    createdAt := it.createdAt,
    buyer := jsOr buyer "Unknown", soldAt := now, status := "Pending" }

/-- The `.mark-sold` click handler (lines 1785-1816), after buyer
resolution: silently a no-op when the listing id is not found. -/
def markSold (st : LedgerState) (listingId buyer : String) (now : Nat) :
    LedgerState :=
  match extractFirst (fun x => x.id = listingId) st.forsale with
  | none => st
  | some (it, rest) =>
    { st with
      forsale := rest,
      sold := soldFromListing it buyer now :: st.sold }

/-! ## Seller / buyer management (manage-sellers and manage-buyers modals) -/

/-- The rename branch of the manage-sellers modal (src/twicks.js lines
1442-1461): a no-op when the new name is blank or unchanged; otherwise
swap the registry entry, retag matching `bought` and `forsale` records,
and update the last-used pointer if it matched.  The `sold` collection is
not touched by this handler. -/
def renameSeller (st : LedgerState) (name nn : String) : LedgerState :=
  if nn = "" ∨ nn = name then st
  else
    { st with
      sellers := insertUniq (st.sellers.filter (fun s => s ≠ name)) nn,
      bought := st.bought.map
        (fun i => if jsOr i.seller "" = name then { i with seller := nn } else i),
      forsale := st.forsale.map
        (fun i => if jsOr i.seller "" = name then { i with seller := nn } else i),
      sellerLast := if st.sellerLast = some name then some nn else st.sellerLast }

/-- The delete branch of the manage-sellers modal (lines 1462-1494).
`reassignTo = ""` models a blank or cancelled prompt (JS falsy): matching
records are then cleared to the empty string; otherwise the target name is
added to the registry and matching records are retagged to it.  The name
is removed from the registry and the last-used pointer is dropped if it
matched. -/
def deleteSeller (st : LedgerState) (name reassignTo : String) : LedgerState :=
  let target := if reassignTo ≠ "" then reassignTo else ""
  let sellers1 := if reassignTo ≠ "" then insertUniq st.sellers reassignTo
                  else st.sellers
  { st with
    sellers := sellers1.filter (fun s => s ≠ name),
    bought := st.bought.map
      (fun i => if jsOr i.seller "" = name then { i with seller := target } else i),
    forsale := st.forsale.map
      (fun i => if jsOr i.seller "" = name then { i with seller := target } else i),
    sellerLast := if st.sellerLast = some name then none else st.sellerLast }

/-- The rename branch of the manage-buyers modal (lines 1624-1648):
retags `sold` and `forsale` records and the last-used buyer pointer. -/
def renameBuyer (st : LedgerState) (name nn : String) : LedgerState :=
  if nn = "" ∨ nn = name then st
  else
    { st with
      buyers := insertUniq (st.buyers.filter (fun s => s ≠ name)) nn,
      sold := st.sold.map
        (fun i => if jsOr i.buyer "" = name then { i with buyer := nn } else i),
      forsale := st.forsale,
      buyerLast := if st.buyerLast = some name then some nn else st.buyerLast }

/-- The delete branch of the manage-buyers modal (lines 1649-1663): only
the registry entry and the last-used pointer are removed — the
confirmation text itself says "Existing SOLD/FS entries will keep the
name", and no record is updated or reassigned. -/
def deleteBuyer (st : LedgerState) (name : String) : LedgerState :=
  { st with
    buyers := st.buyers.filter (fun s => s ≠ name),
    buyerLast := if st.buyerLast = some name then none else st.buyerLast }

/-! ## Sold-status and cash operations -/

/-- `sold[idx].status = "Paid"` after `findIndex` (lines 2189-2204):
set the first matching record's status; `none` when the id is absent. -/
def setFirstPaid (id : String) : List SoldRecord → Option (List SoldRecord)
  | [] => none
  | r :: rs =>
    if r.id = id then some ({ r with status := "Paid" } :: rs)
    else (setFirstPaid id rs).map (fun l => r :: l)

/-- The `.mark-paid` handler (lines 2189-2204): alert + no-op when the id
is not found. -/
def markPaid (st : LedgerState) (id : String) : LedgerState :=
  match setFirstPaid id st.sold with
  | none => st
  | some l => { st with sold := l }

/-- Predicate for records the `.mark-all-paid` handler touches
(line 2174): buyer matches (with the `|| "Unknown"` default) and status is
not already `"Paid"` (with the `|| "Pending"` default). -/
def needsPayUpdate (buyer : String) (r : SoldRecord) : Bool :=
  jsOr r.buyer "Unknown" = buyer ∧ jsOr r.status "Pending" ≠ "Paid"

/-- The `.mark-all-paid` handler (lines 2166-2187): when no record of the
buyer is pending nothing is saved ("Nothing to mark as paid."). -/
def markAllPaid (st : LedgerState) (buyer : String) : LedgerState :=
  if st.sold.any (needsPayUpdate buyer) then
    { st with
      sold := st.sold.map fun r =>
        if needsPayUpdate buyer r then { r with status := "Paid" } else r }
  else st

/-- The `addCashBtn` handler (lines 2452-2476): rejects a NaN or
non-positive parsed amount (`none` models NaN) and otherwise prepends a
positive entry. -/
def addCash (st : LedgerState) (src : CashSource) (amt : Option ℚ)
    (note id : String) (t : Nat) : LedgerState :=
  match amt with
  | none => st
  | some a =>
    if a ≤ 0 then st
    else { st with cash :=
      { id := id, source := src.str, amount := a, note := note, createdAt := t }
        :: st.cash }

/-- The `deductCashBtn` handler (lines 2478-2502): same guard, records
`-Math.abs(amount)` with the note defaulting to "Purchase deduction". -/
def deductCash (st : LedgerState) (src : CashSource) (amt : Option ℚ)
    (note id : String) (t : Nat) : LedgerState :=
  match amt with
  | none => st
  | some a =>
    if a ≤ 0 then st
    else { st with cash :=
      { id := id, source := src.str, amount := -|a|,
        note := jsOr note "Purchase deduction", createdAt := t } :: st.cash }

/-- The `okAddCash` handler of the add-to-cash modal (lines 2277-2296):
guard `!src || isNaN(amt) || amt <= 0`, then prepend a positive entry.
The source is one of the three modal options, so `!src` is never hit. -/
def okAddCash (st : LedgerState) (src : CashSource) (amt : Option ℚ)
    (note id : String) (t : Nat) : LedgerState :=
  match amt with
  | none => st
  | some a =>
    if a ≤ 0 then st
    else { st with cash :=
      { id := id, source := src.str, amount := a, note := note, createdAt := t }
        :: st.cash }

/-- The `.delete-cash` handler (lines 2505-2517): splice out the first
entry with the id; no-op when absent. -/
def deleteCash (st : LedgerState) (id : String) : LedgerState :=
  match extractFirst (fun x => x.id = id) st.cash with
  | none => st
  | some (_, rest) => { st with cash := rest }

/-! ## Cash aggregation (Cash.render and calcSoldRevenue, lines 2339-2394) -/

/-- The per-source bucket built by the `items.forEach` fold at lines
2372-2375: sum of the amounts of the entries tagged with `s`. -/
def totalForSource (s : String) : List CashEntry → ℚ
  | [] => 0
  | e :: l => (if e.source = s then e.amount else 0) + totalForSource s l

/-- `onHandTotal` (lines 2377-2378): only the three known source buckets
are added. -/
def onHandTotal (cash : List CashEntry) : ℚ :=
  totalForSource "GCash" cash + totalForSource "SeaBank" cash
    + totalForSource "Cash" cash

/-- Sum of all amounts in the cash ledger (what the claim calls the sum of
all on-hand entries). -/
def cashSum : List CashEntry → ℚ
  | [] => 0
  | e :: l => e.amount + cashSum l

/-- `(i.status || "Pending") === "Paid"` (line 2341). -/
def isPaidStatus (s : String) : Bool := jsOr s "Pending" = "Paid"

/-- Sum of prices of a list of sold records. -/
def priceSum : List SoldRecord → ℚ
  | [] => 0
  | r :: l => r.price + priceSum l

/-- `paidRevenue` from `calcSoldRevenue` (lines 2341-2343). -/
def paidRevenue (sold : List SoldRecord) : ℚ :=
  priceSum (sold.filter (fun i => isPaidStatus i.status))

/-- `pendingRevenue` from `calcSoldRevenue` (lines 2342-2347). -/
def pendingRevenue (sold : List SoldRecord) : ℚ :=
  priceSum (sold.filter (fun i => !isPaidStatus i.status))

/-- The grand total reported by `Cash.render` (line 2389):
on-hand bucket total plus paid revenue; pending revenue is shown
separately and not added. -/
def grandTotal (st : LedgerState) : ℚ :=
  onHandTotal st.cash + paidRevenue st.sold

/-! ## Snapshot backup / restore (backupToDrive lines 518-535,
restoreFromDrive lines 566-578)

The snapshot fields hold whatever `Storage.load` returned for each key,
which is an arbitrary JSON value; restore gates each write on JS
truthiness (`if (data.bought) ...`).  `JVal` is that value universe, and
`Persist` is the load-visible value of the seven persisted collections. -/
inductive JVal where
  | null
  | boolean (b : Bool)
  | number (q : ℚ)
  | string (s : String)
  | array (elems : List JVal)

/-- JS truthiness for a `JVal` (arrays and objects are always truthy;
`NaN` does not arise from `JSON.parse`). -/
def truthy : JVal → Bool
  | .null => false
  | .boolean b => b
  | .number q => q ≠ 0
  | .string s => s ≠ ""
  | .array _ => true

/-- The load-visible values of the seven persisted collections that the
Drive snapshot covers. -/
structure Persist where
  bought : JVal
  forsale : JVal
  sold : JVal
  cash : JVal
  sellers : JVal
  shipping : JVal
  buyers : JVal

/-- The payload object built by `backupToDrive` (lines 519-529). -/
structure DriveSnapshot where
  bought : JVal
  forsale : JVal
  sold : JVal
  cash : JVal
  sellers : JVal
  shipping : JVal
  buyers : JVal
  exportedAt : String
  version : Nat

/-- `buildSnapshot` as performed by `backupToDrive`: each field is the
current loaded collection, plus the export timestamp and `version: 3`. -/
def buildSnapshot (p : Persist) (ts : String) : DriveSnapshot :=
  { bought := p.bought, forsale := p.forsale, sold := p.sold,
    cash := p.cash, sellers := p.sellers, shipping := p.shipping,
    buyers := p.buyers, exportedAt := ts, version := 3 }

/-- The field-by-field restore of `restoreFromDrive` (lines 569-575):
each truthy snapshot field overwrites the corresponding collection
verbatim; falsy (absent) fields leave the live value untouched. -/
def restoreSnapshot (data : DriveSnapshot) (p : Persist) : Persist :=
  { bought := if truthy data.bought then data.bought else p.bought,
    forsale := if truthy data.forsale then data.forsale else p.forsale,
    sold := if truthy data.sold then data.sold else p.sold,
    cash := if truthy data.cash then data.cash else p.cash,
    sellers := if truthy data.sellers then data.sellers else p.sellers,
    shipping := if truthy data.shipping then data.shipping else p.shipping,
    buyers := if truthy data.buyers then data.buyers else p.buyers }

/-- One round of "backup then restore" on the live store, with `ts` the
export timestamp of that round. -/
def restoreOfBuild (p : Persist) (ts : String) : Persist :=
  restoreSnapshot (buildSnapshot p ts) p

/-! ## The two remote backup endpoints

`src/api/twicks-backup.js` (the Vercel-style deployment, default export
`handler`) and `src/unnamed/part_000` (the Netlify-style deployment,
`exports.handler`) over the same `twicks_backups` table.  A database is a
list of rows; the SQL-assigned `id` and `created_at` of an insert are
parameters.  A request body is its parsed form: `payload`/`label` are
`none` when absent or falsy (both sources apply truthiness via
`if (!payload)` and `label || "manual"`), and a whole-body `none` models
an unparseable body. -/
structure BackupRow where
  id : Nat
  created_at : Nat
  label : String
  payload : Option String
deriving DecidableEq

/-- Parsed JSON request body `{ payload, label }`. -/
structure BackupReqBody where
  payload : Option String
  label : Option String
deriving DecidableEq

/-- An HTTP request to the backup endpoint. -/
structure BackupReq where
  method : String
  body : Option BackupReqBody
deriving DecidableEq

/-- An atomic JSON value in a response. -/
inductive JAtom where
  | anull
  | abool (b : Bool)
  | anum (n : Nat)
  | astr (s : String)
deriving DecidableEq

/-- A top-level field of a JSON response object: an atom or a flat
object (the response bodies of both handlers nest at most one level). -/
inductive JField where
  | atom (a : JAtom)
  | obj (kvs : List (String × JAtom))
deriving DecidableEq

/-- A response body: a JSON object, a plain text body, or empty. -/
inductive RespBody where
  | jsonB (kvs : List (String × JField))
  | textB (s : String)
  | emptyB
deriving DecidableEq

/-- An HTTP response. -/
structure HttpResp where
  status : Nat
  body : RespBody
deriving DecidableEq

/-- `ORDER BY created_at DESC LIMIT 1` over the rows (shared by both
handlers' `SELECT`); on a tie the earlier row is kept, consistently for
both. -/
def latestBackup : List BackupRow → Option BackupRow
  | [] => none
  | r :: rs =>
    match latestBackup rs with
    | none => some r
    | some b => if b.created_at > r.created_at then some b else some r

/-- The `{ id, created_at, label, payload }` object both SQL statements
return (`RETURNING` / `SELECT` column list). -/
def rowJson (r : BackupRow) : JField :=
  .obj [("id", .anum r.id), ("created_at", .anum r.created_at),
        ("label", .astr r.label),
        ("payload", match r.payload with
                    | some p => .astr p
                    | none => .anull)]

/-- The Vercel-style handler, src/api/twicks-backup.js lines 51-118:
OPTIONS preflight returns 200 empty; POST requires a truthy payload (400
otherwise), inserts `label || "manual"`, and answers
`{ success, backup: { id, created_at, label, payload } }`; GET answers the
most recent row in that shape or `{ success: false, backup: null, error }`;
any other method gets a JSON 405. -/
def vercelHandler (req : BackupReq) (db : List BackupRow)
    (newId newTime : Nat) : HttpResp × List BackupRow :=
  if req.method = "OPTIONS" then (⟨200, .emptyB⟩, db)
  else if req.method = "POST" then
    let b := req.body.getD ⟨none, none⟩
    match b.payload with
    | none =>
      (⟨400, .jsonB [("success", .atom (.abool false)),
                     ("error", .atom (.astr "Missing payload"))]⟩, db)
    | some p =>
      let row : BackupRow :=
        ⟨newId, newTime, (b.label.getD "manual"), some p⟩
      (⟨200, .jsonB [("success", .atom (.abool true)),
                     ("backup", rowJson row)]⟩, db ++ [row])
  else if req.method = "GET" then
    match latestBackup db with
    | none =>
      (⟨200, .jsonB [("success", .atom (.abool false)),
                     ("backup", .atom .anull),
                     ("error", .atom (.astr "No backups found"))]⟩, db)
    | some r =>
      (⟨200, .jsonB [("success", .atom (.abool true)),
                     ("backup", rowJson r)]⟩, db)
  else
    (⟨405, .jsonB [("success", .atom (.abool false)),
                   ("error", .atom (.astr "Method not allowed"))]⟩, db)

/-- The Netlify-style handler, src/unnamed/part_000 lines 4-63: POST
parses the body (a parse failure is caught and answered with a 500 whose
`error` field carries the exception message, modelled as a fixed string),
inserts `(payload, label || "manual")` with no payload check, and answers
`{ success, saved: { id, created_at } }`; GET answers
`{ success: true, backup: <row or null> }`; there is no OPTIONS branch, so
any method other than POST and GET — OPTIONS included — gets the
plain-text 405 body. -/
def netlifyHandler (req : BackupReq) (db : List BackupRow)
    (newId newTime : Nat) : HttpResp × List BackupRow :=
  if req.method = "POST" then
    match req.body with
    | none =>
      (⟨500, .jsonB [("error", .atom (.astr "JSON parse error"))]⟩, db)
    | some b =>
      let row : BackupRow :=
        ⟨newId, newTime, (b.label.getD "manual"), b.payload⟩
      (⟨200, .jsonB [("success", .atom (.abool true)),
                     ("saved", .obj [("id", .anum newId),
                                     ("created_at", .anum newTime)])]⟩,
       db ++ [row])
  else if req.method = "GET" then
    match latestBackup db with
    | none =>
      (⟨200, .jsonB [("success", .atom (.abool true)),
                     ("backup", .atom .anull)]⟩, db)
    | some r =>
      (⟨200, .jsonB [("success", .atom (.abool true)),
                     ("backup", rowJson r)]⟩, db)
  else
    (⟨405, .textB "Method not allowed"⟩, db)

/-! ## Helper lemmas -/

/-- `x || ""` is the identity on our strings-with-""-for-missing model. -/
theorem jsOr_empty (s : String) : jsOr s "" = s := by
  unfold jsOr
  split
  · rename_i h
    exact h.symm
  · rfl

/-- Count of occurrences of a string in a list. -/
def countStr (s : String) : List String → Nat
  | [] => 0
  | x :: l => (if x = s then 1 else 0) + countStr s l

/-- The string rewrite applied to a seller/buyer field by the rename and
delete cascades: `a` becomes `t`, anything else is kept. -/
def retag (a t x : String) : String := if x = a then t else x

theorem countStr_map_retag_self (l : List String) (a t : String)
    (h : t ≠ a) : countStr a (l.map (retag a t)) = 0 := by
  induction l with
  | nil => rfl
  | cons x l ih =>
    simp only [List.map_cons, countStr, retag]
    by_cases hx : x = a
    · simp [hx, h, ih]
    · simp [hx, ih]

theorem countStr_map_retag_target (l : List String) (a t : String)
    (h : t ≠ a) : countStr t (l.map (retag a t)) = countStr a l + countStr t l := by
  induction l with
  | nil => rfl
  | cons x l ih =>
    simp only [List.map_cons, countStr, retag]
    by_cases hx : x = a
    · subst hx
      simp [ih, Ne.symm h]
      omega
    · simp [hx, ih]
      omega

/-- Projecting the seller field after the rename/delete cascade over
`bought` is the same as retagging the projected seller list. -/
theorem boughtSellers_retag (l : List InventoryItem) (a t : String) :
    ((l.map (fun i => if jsOr i.seller "" = a then { i with seller := t } else i)).map
        (fun i => i.seller))
      = (l.map (fun i => i.seller)).map (retag a t) := by
  rw [List.map_map, List.map_map]
  apply List.map_congr_left
  intro i _
  by_cases hi : i.seller = a <;>
    simp [Function.comp, jsOr_empty, retag, hi]

/-- Same for the `forsale` collection. -/
theorem forsaleSellers_retag (l : List Listing) (a t : String) :
    ((l.map (fun i => if jsOr i.seller "" = a then { i with seller := t } else i)).map
        (fun i => i.seller))
      = (l.map (fun i => i.seller)).map (retag a t) := by
  rw [List.map_map, List.map_map]
  apply List.map_congr_left
  intro i _
  by_cases hi : i.seller = a <;>
    simp [Function.comp, jsOr_empty, retag, hi]

/-- `extractFirst` only ever removes an element: what it finds was in the
list, and the remainder is the list minus that occurrence. -/
theorem extractFirst_split {α : Type} (p : α → Bool) (l : List α)
    (a : α) (r : List α) (h : extractFirst p l = some (a, r)) :
    p a = true ∧ ∃ l1 l2, l = l1 ++ a :: l2 ∧ r = l1 ++ l2 := by
  induction l generalizing r with
  | nil => simp [extractFirst] at h
  | cons x xs ih =>
    by_cases hx : p x = true
    · rw [extractFirst, if_pos hx] at h
      have hax : x = a ∧ xs = r := by simpa using h
      refine ⟨hax.1 ▸ hx, [], xs, ?_, ?_⟩
      · simp [hax.1]
      · simp [hax.2]
    · rw [extractFirst, if_neg hx] at h
      obtain ⟨⟨b, r2⟩, hpr, hmk⟩ := Option.map_eq_some'.mp h
      simp only [Prod.mk.injEq] at hmk
      obtain ⟨hb, hr⟩ := hmk
      subst hb
      obtain ⟨hpb, l1, l2, hsplit, hrest⟩ := ih r2 hpr
      exact ⟨hpb, x :: l1, l2, by simp [hsplit], by simp [← hr, hrest]⟩

/-! ## Claim C3 — auto-backup dirty notification per save -/

/-- A concrete save state with a healthy localStorage and no marks yet. -/
def saveState0 : SaveState :=
  { localThrows := false, localStore := [], idbStore := [],
    dirty := false, dirtyMarks := 0 }

/-- A concrete save state whose localStorage throws, so the write goes to
the secondary IndexedDB store. -/
def saveStateQuota : SaveState :=
  { localThrows := true, localStore := [], idbStore := [],
    dirty := false, dirtyMarks := 0 }

/-- C3 counterexample: the claim says one `Storage.save` call notifies
`AutoBackup.markDirty` exactly once; because the patch IIFE is installed
twice (src/twicks.js lines 808-816 and 818-827), a single call through
the installed save runs `markDirty` twice, not once. -/
theorem installedSave_double_mark_cex :
    (installedSave "twicks_bought_v1" "[]" saveState0).dirtyMarks = 2 ∧
    ¬ (installedSave "twicks_bought_v1" "[]" saveState0).dirtyMarks = 1 := by
  constructor
  · rfl
  · decide

/-- C3 (amended): every call through the installed `Storage.save` notifies
`AutoBackup.markDirty` exactly twice — once per installed patch — and this
holds on the secondary IndexedDB path (localStorage throwing) as well as
on the primary path. -/
theorem installedSave_marks_exactly_twice (key val : String) (s : SaveState) :
    (installedSave key val s).dirtyMarks = s.dirtyMarks + 2 ∧
    (installedSave key val s).dirty = true := by
  unfold installedSave patchStorageSaveForAutoBackup markDirty Storage_save
  by_cases h : s.localThrows <;> simp [h]

/-! ## Claim C4 — Storage.load fallback behaviour -/

/-- A concrete environment whose localStorage holds a corrupt JSON string
while the secondary IndexedDB store holds the value 42. -/
def envC4 : LoadEnv Nat :=
  { localGet := .returns (some "not valid json"),
    parse := fun _ => .throws,
    idb := some 42 }

/-- C4 counterexample: the claim says a JSON parse error of the fast
store's value falls back to the secondary store; in the code
(src/twicks.js line 166) a parse error returns the caller-supplied
fallback directly, so with the secondary store holding 42 the load still
answers the fallback 0 rather than 42. -/
theorem Storage_load_parse_error_cex :
    Storage_load envC4 0 = 0 ∧ envC4.idb = some 42 ∧ ¬ (0 : Nat) = 42 :=
  ⟨rfl, rfl, by decide⟩

/-- C4 (amended): `Storage.load` tries the fast synchronous store first;
on a read failure of the fast store, or when the key is absent there, it
falls back to the secondary store under the same key; on a JSON parse
error — or a parsed JSON `null` — of the fast store's value it returns the
caller-supplied fallback directly without consulting the secondary store;
when both stores are empty or unavailable it returns the fallback; and it
never throws (it is a total function of the platform outcomes). -/
theorem Storage_load_spec (α : Type) (raw : String)
    (pr : String → JsCall (Option α)) (idbv : Option α) (fb v : α) :
    Storage_load { localGet := .returns (some raw), parse := fun _ => .throws,
                   idb := idbv } fb = fb ∧
    Storage_load { localGet := .returns (some raw),
                   parse := fun _ => .returns none, idb := idbv } fb = fb ∧
    Storage_load { localGet := .returns (some raw),
                   parse := fun _ => .returns (some v), idb := idbv } fb = v ∧
    Storage_load { localGet := .throws, parse := pr, idb := idbv } fb
      = idbv.getD fb ∧
    Storage_load { localGet := .returns none, parse := pr, idb := idbv } fb
      = idbv.getD fb ∧
    Storage_load { localGet := .throws, parse := pr, idb := none } fb = fb ∧
    Storage_load { localGet := .returns none, parse := pr, idb := none } fb
      = fb := by
  refine ⟨rfl, rfl, rfl, ?_, ?_, rfl, rfl⟩ <;> cases idbv <;> rfl

/-! ## Claim C8 — restore of a fresh snapshot is idempotent -/

/-- One "restore what was just backed up" round is the identity on the
load-visible collections: every truthy field is overwritten by its own
value and every falsy field is skipped. -/
theorem restoreOfBuild_eq_id (p : Persist) (ts : String) :
    restoreOfBuild p ts = p := by
  cases p
  simp [restoreOfBuild, restoreSnapshot, buildSnapshot]

/-- C8: restoring the snapshot produced by `buildSnapshot` is idempotent —
running the backup-then-restore round twice (with arbitrary export
timestamps) leaves the same live collection state as running it once,
because `restoreFromDrive` overwrites each present field verbatim and
leaves absent fields untouched. -/
theorem restore_build_idempotent (p : Persist) (ts1 ts2 : String) :
    restoreOfBuild (restoreOfBuild p ts1) ts2 = restoreOfBuild p ts1 := by
  rw [restoreOfBuild_eq_id, restoreOfBuild_eq_id]

/-! ## Claim C2 — listing price on move to for-sale -/

/-- The item of the claim's example, entered through the intake form with
buy 100, ship-in 10 and a NaN (empty) sell field. -/
def itemC2 : InventoryItem := mkBoughtItem "itm1" "S" "Card" 100 (some 10) none "" 0

/-- A ledger holding just that item. -/
def stC2 : LedgerState := { emptyLedger with bought := [itemC2] }

/-- C2 counterexample: the claim's example says an item entered with
buy=100, ship=10 and no explicit sell price moves to a listing with
price 110; the intake handler (line 1348) defaults the missing sell field
to the buy cost, so the move produces price 100, not 110. -/
theorem listForSale_example_cex :
    ((listForSale stC2 "itm1" "lst1" 1).forsale.map (fun l => l.price)) = [100] ∧
    ¬ ((100 : ℚ) = 110) := by
  constructor
  · rfl
  · decide

/-- C2 (amended): the new listing's price equals the item's sell field
when present, else buy+ship; but an item entered through the intake form
has its sell field defaulted to the buy cost when the sell input is NaN,
so the claim's example item yields listing price 100 (the buy cost), not
110. -/
theorem listForSale_price_default (st : LedgerState) (id newId : String)
    (now : Nat) (item : InventoryItem) (rest : List InventoryItem)
    (h : extractFirst (fun x => x.id = id) st.bought = some (item, rest)) :
    (listForSale st id newId now).forsale
      = mkListingFromItem item newId now :: st.forsale ∧
    (mkListingFromItem item newId now).price
      = (match item.sell with | some s => s | none => item.buy + item.ship) ∧
    ∀ (i s n : String) (b : ℚ) (sh : Option ℚ) (img : String) (t : Nat),
      (mkBoughtItem i s n b sh none img t).sell = some b := by
  refine ⟨?_, rfl, fun i s n b sh img t => rfl⟩
  unfold listForSale
  rw [h]

/-- C2 witness: the amended theorem applied to the example item; its sell
field was defaulted to 100 at intake, so the resulting listing's price is
100. -/
theorem listForSale_price_default_witness :
    (listForSale stC2 "itm1" "lst1" 1).forsale
      = mkListingFromItem itemC2 "lst1" 1 :: stC2.forsale ∧
    (mkListingFromItem itemC2 "lst1" 1).price = 100 := by
  have h := listForSale_price_default stC2 "itm1" "lst1" 1 itemC2 [] (by rfl)
  exact ⟨h.1, by decide⟩

/-! ## Claim C5 — stage transitions and record identity -/

/-- A concrete listing used to exercise the mark-sold transition. -/
def lstC5 : Listing :=
  { id := "lst9", name := "Card", price := 50, buy := 30, ship_in := 5,
    seller := "A", image := "", createdAt := 0 }

/-- A ledger holding just that listing. -/
def stC5 : LedgerState := { emptyLedger with forsale := [lstC5] }

/-- C5 counterexample: the claim says every stage transition inserts an
entry with a fresh id distinct from the source's id; the mark-sold handler
(lines 1805-1811) splices the listing object out and pushes the same
object into `sold`, so the sold record keeps the listing's id "lst9". -/
theorem markSold_keeps_source_id_cex :
    ((markSold stC5 "lst9" "B" 7).sold.map (fun r => r.id)) = ["lst9"] ∧
    (stC5.forsale.map (fun l => l.id)) = ["lst9"] ∧
    ¬ (∀ r ∈ (markSold stC5 "lst9" "B" 7).sold, ¬ r.id = "lst9") := by
  refine ⟨rfl, rfl, ?_⟩
  intro hall
  exact hall (soldFromListing lstC5 "B" 7) (by simp [markSold, stC5, extractFirst, lstC5, emptyLedger]) rfl

/-- C5 (amended): each stage transition deletes the source entry and
inserts exactly one new entry carrying the buy+ship cost forward; the
inventory-to-listing transition gives the new listing the freshly
generated id, while the listing-to-sold transition moves the record with
its id preserved (no fresh id is generated).  The extracted source record
is the first one bearing the requested id, and the remainder is the
collection with that one occurrence removed. -/
theorem stage_transitions (st1 st2 : LedgerState) (idB newId idF buyer : String)
    (now now2 : Nat) (item : InventoryItem) (restB : List InventoryItem)
    (lst : Listing) (restF : List Listing)
    (h1 : extractFirst (fun x => x.id = idB) st1.bought = some (item, restB))
    (h2 : extractFirst (fun x => x.id = idF) st2.forsale = some (lst, restF)) :
    (listForSale st1 idB newId now).bought = restB ∧
    (listForSale st1 idB newId now).forsale
      = mkListingFromItem item newId now :: st1.forsale ∧
    (mkListingFromItem item newId now).id = newId ∧
    (mkListingFromItem item newId now).buy = item.buy + item.ship ∧
    item.id = idB ∧
    (∃ l1 l2, st1.bought = l1 ++ item :: l2 ∧ restB = l1 ++ l2) ∧
    (markSold st2 idF buyer now2).forsale = restF ∧
    (markSold st2 idF buyer now2).sold
      = soldFromListing lst buyer now2 :: st2.sold ∧
    (soldFromListing lst buyer now2).id = lst.id ∧
    (soldFromListing lst buyer now2).buy = lst.buy ∧
    (soldFromListing lst buyer now2).price = lst.price ∧
    lst.id = idF ∧
    (∃ l1 l2, st2.forsale = l1 ++ lst :: l2 ∧ restF = l1 ++ l2) := by
  obtain ⟨hp1, la, lb, hsp1, hr1⟩ := extractFirst_split _ _ _ _ h1
  obtain ⟨hp2, lc, ld, hsp2, hr2⟩ := extractFirst_split _ _ _ _ h2
  refine ⟨?_, ?_, rfl, rfl, by simpa using hp1, ⟨la, lb, hsp1, hr1⟩,
          ?_, ?_, rfl, rfl, rfl, by simpa using hp2, ⟨lc, ld, hsp2, hr2⟩⟩
  · unfold listForSale
    rw [h1]
  · unfold listForSale
    rw [h1]
  · unfold markSold
    rw [h2]
  · unfold markSold
    rw [h2]

/-- C5 witness: the amended theorem at concrete states — the inventory
item "itm7" moves to a listing with the fresh id "new7", and the listing
"lst9" moves to a sold record that keeps the id "lst9". -/
theorem stage_transitions_witness :
    (listForSale { emptyLedger with
        bought := [mkBoughtItem "itm7" "S" "Card" 20 (some 3) none "" 0] }
        "itm7" "new7" 4).bought = [] ∧
    (mkListingFromItem (mkBoughtItem "itm7" "S" "Card" 20 (some 3) none "" 0)
        "new7" 4).id = "new7" ∧
    (markSold stC5 "lst9" "B" 7).forsale = [] ∧
    (soldFromListing lstC5 "B" 7).id = lstC5.id := by
  have h := stage_transitions
    { emptyLedger with
        bought := [mkBoughtItem "itm7" "S" "Card" 20 (some 3) none "" 0] }
    stC5 "itm7" "new7" "lst9" "B" 4 7
    (mkBoughtItem "itm7" "S" "Card" 20 (some 3) none "" 0) [] lstC5 []
    (by rfl) (by rfl)
  exact ⟨h.1, h.2.2.1, h.2.2.2.2.2.2.1, h.2.2.2.2.2.2.2.2.1⟩

/-! ## Claim C1 — renaming a seller -/

/-- A listing tagged with seller "A". -/
def lstC1 : Listing :=
  { id := "l1", name := "Card", price := 50, buy := 30, ship_in := 5,
    seller := "A", image := "", createdAt := 0 }

/-- A ledger with that listing for sale and "A" registered. -/
def stC1 : LedgerState :=
  { emptyLedger with forsale := [lstC1], sellers := ["A"] }

/-- The ledger after the listing is sold to buyer "X": the sold record
carries the seller field "A" forward. -/
def stC1sold : LedgerState := markSold stC1 "l1" "X" 2

/-- C1 counterexample: the claim says renaming seller "A" to "B" leaves
zero records with seller "A" across all three collections; the rename
handler (lines 1442-1461) rewrites only `bought` and `forsale`, so a sold
record created from an "A" listing still carries seller "A" after the
rename. -/
theorem renameSeller_sold_cex :
    countStr "A" ((renameSeller stC1sold "A" "B").sold.map (fun r => r.seller))
      = 1 ∧
    ¬ countStr "A" ((renameSeller stC1sold "A" "B").sold.map (fun r => r.seller))
      = 0 := by
  constructor
  · rfl
  · decide

/-- C1 (amended): for every seller name A and non-empty new name B with
B distinct from A, the rename updates every `bought` and `forsale` record
referencing A (a scan of those two collections finds zero records with
seller A, and the records previously tagged A are now counted under B),
and updates the last-used seller pointer if it equalled A — but the
`sold` collection is left untouched, so sold records keep the old seller
name. -/
theorem renameSeller_cascades (st : LedgerState) (A B : String)
    (hB : ¬ B = "") (hBA : ¬ B = A) :
    countStr A ((renameSeller st A B).bought.map (fun i => i.seller)) = 0 ∧
    countStr A ((renameSeller st A B).forsale.map (fun i => i.seller)) = 0 ∧
    countStr B ((renameSeller st A B).bought.map (fun i => i.seller))
      = countStr A (st.bought.map (fun i => i.seller))
        + countStr B (st.bought.map (fun i => i.seller)) ∧
    countStr B ((renameSeller st A B).forsale.map (fun i => i.seller))
      = countStr A (st.forsale.map (fun i => i.seller))
        + countStr B (st.forsale.map (fun i => i.seller)) ∧
    (renameSeller st A B).sold = st.sold ∧
    (st.sellerLast = some A → (renameSeller st A B).sellerLast = some B) := by
  have hguard : ¬ (B = "" ∨ B = A) := by
    intro hor
    cases hor with
    | inl h => exact hB h
    | inr h => exact hBA h
  unfold renameSeller
  rw [if_neg hguard]
  refine ⟨?_, ?_, ?_, ?_, rfl, fun hl => by simp [hl]⟩
  · rw [boughtSellers_retag]
    exact countStr_map_retag_self _ _ _ hBA
  · rw [forsaleSellers_retag]
    exact countStr_map_retag_self _ _ _ hBA
  · rw [boughtSellers_retag]
    exact countStr_map_retag_target _ _ _ hBA
  · rw [forsaleSellers_retag]
    exact countStr_map_retag_target _ _ _ hBA

/-- C1 witness: the amended theorem at the concrete sold-state ledger:
renaming "A" to "B" leaves zero "A" records in `bought` and `forsale` and
keeps the sold collection as it was. -/
theorem renameSeller_cascades_witness :
    countStr "A" ((renameSeller stC1sold "A" "B").bought.map (fun i => i.seller))
      = 0 ∧
    countStr "A" ((renameSeller stC1sold "A" "B").forsale.map (fun i => i.seller))
      = 0 ∧
    (renameSeller stC1sold "A" "B").sold = stC1sold.sold := by
  have h := renameSeller_cascades stC1sold "A" "B" (by decide) (by decide)
  exact ⟨h.1, h.2.1, h.2.2.2.2.1⟩

/-! ## Claim C6 — deleting a seller / buyer -/

/-- A listing sold to buyer "X", giving a sold record referencing "X". -/
def lstC6 : Listing :=
  { id := "lb", name := "Card", price := 80, buy := 40, ship_in := 0,
    seller := "S", image := "", createdAt := 0 }

/-- A ledger whose sold collection references buyer "X" and whose buyer
registry holds "X". -/
def stC6 : LedgerState :=
  { markSold { emptyLedger with forsale := [lstC6] } "lb" "X" 3 with
    buyers := ["X"] }

/-- C6 counterexample: the claim says `deleteParty` for either kind
rewrites every referencing record to the reassignment target or clears it;
the manage-buyers delete handler (lines 1649-1663) only removes the
registry entry — its own confirmation text says sold/for-sale entries keep
the name — so the sold record still carries buyer "X" (not cleared to
empty) after the buyer is deleted. -/
theorem deleteBuyer_no_cascade_cex :
    ((deleteBuyer stC6 "X").sold.map (fun r => r.buyer)) = ["X"] ∧
    ¬ (∀ r ∈ (deleteBuyer stC6 "X").sold, ¬ r.buyer = "X") := by
  refine ⟨rfl, ?_⟩
  intro hall
  exact hall (soldFromListing lstC6 "X" 3)
    (by simp [deleteBuyer, stC6, markSold, extractFirst, lstC6, emptyLedger]) rfl

/-- C6 (amended): deleting a seller removes the name from the registry
and rewrites every referencing `bought`/`forsale` record to the
reassignment target when one is given, else clears it to empty (the
records previously tagged with the name are all counted under the target
afterwards); deleting a buyer, however, only removes the registry entry —
referencing sold and for-sale records keep the deleted name unchanged. -/
theorem deleteParty_behavior (st st2 : LedgerState) (name r : String)
    (hr : ¬ r = name) (hn : ¬ name = "") :
    countStr name ((deleteSeller st name r).bought.map (fun i => i.seller)) = 0 ∧
    countStr name ((deleteSeller st name r).forsale.map (fun i => i.seller)) = 0 ∧
    ¬ name ∈ (deleteSeller st name r).sellers ∧
    countStr (if ¬ r = "" then r else "")
        ((deleteSeller st name r).bought.map (fun i => i.seller))
      = countStr name (st.bought.map (fun i => i.seller))
        + countStr (if ¬ r = "" then r else "")
            (st.bought.map (fun i => i.seller)) ∧
    countStr (if ¬ r = "" then r else "")
        ((deleteSeller st name r).forsale.map (fun i => i.seller))
      = countStr name (st.forsale.map (fun i => i.seller))
        + countStr (if ¬ r = "" then r else "")
            (st.forsale.map (fun i => i.seller)) ∧
    (deleteBuyer st2 name).sold = st2.sold ∧
    (deleteBuyer st2 name).forsale = st2.forsale ∧
    (deleteBuyer st2 name).bought = st2.bought ∧
    ¬ name ∈ (deleteBuyer st2 name).buyers := by
  have htarget : ¬ (if ¬ r = "" then r else "") = name := by
    by_cases hre : r = ""
    · simp [hre]
      intro h
      exact hn h.symm
    · simp [hre, hr]
  constructor
  · unfold deleteSeller
    rw [boughtSellers_retag]
    exact countStr_map_retag_self _ _ _ htarget
  constructor
  · unfold deleteSeller
    rw [forsaleSellers_retag]
    exact countStr_map_retag_self _ _ _ htarget
  constructor
  · unfold deleteSeller
    simp [List.mem_filter]
  constructor
  · unfold deleteSeller
    rw [boughtSellers_retag]
    exact countStr_map_retag_target _ _ _ htarget
  constructor
  · unfold deleteSeller
    rw [forsaleSellers_retag]
    exact countStr_map_retag_target _ _ _ htarget
  refine ⟨rfl, rfl, rfl, ?_⟩
  unfold deleteBuyer
  simp [List.mem_filter]

/-- C6 witness: the amended theorem at the concrete buyer-state ledger:
deleting seller "S" with reassignment to "Y" leaves no "S"-tagged records,
and deleting buyer "X" leaves the sold records untouched with the name
still present. -/
theorem deleteParty_behavior_witness :
    countStr "S" ((deleteSeller stC6 "S" "Y").bought.map (fun i => i.seller))
      = 0 ∧
    (deleteBuyer stC6 "X").sold = stC6.sold ∧
    ¬ "X" ∈ (deleteBuyer stC6 "X").buyers := by
  have h := deleteParty_behavior stC6 stC6 "S" "Y" (by decide) (by decide)
  have h2 := deleteParty_behavior stC6 stC6 "X" "" (by decide) (by decide)
  exact ⟨h.1, h2.2.2.2.2.2.1, h2.2.2.2.2.2.2.2.2⟩

/-! ## Claim C10 — cash entry creation paths -/

/-- C10: every entry actually inserted by the three cash creation paths
has a nonzero amount with the operation-fixed sign — the manual add and
the add-to-cash-from-buyer modal insert strictly positive amounts, the
manual deduct inserts a strictly negative amount — and for any input whose
parsed amount is NaN or not strictly positive, all three paths leave the
cash collection unchanged. -/
theorem cash_creation_signs (st : LedgerState) (src : CashSource)
    (amt : Option ℚ) (note id : String) (t : Nat) :
    (∀ e ∈ (addCash st src amt note id t).cash, e ∈ st.cash ∨ 0 < e.amount) ∧
    (∀ e ∈ (okAddCash st src amt note id t).cash, e ∈ st.cash ∨ 0 < e.amount) ∧
    (∀ e ∈ (deductCash st src amt note id t).cash, e ∈ st.cash ∨ e.amount < 0) ∧
    (amt.getD 0 ≤ 0 →
      (addCash st src amt note id t).cash = st.cash ∧
      (okAddCash st src amt note id t).cash = st.cash ∧
      (deductCash st src amt note id t).cash = st.cash) := by
  refine ⟨?_, ?_, ?_, ?_⟩
  · intro e he
    rcases amt with _ | a
    · exact Or.inl he
    · by_cases ha : a ≤ 0
      · exact Or.inl (by simpa [addCash, ha] using he)
      · have he2 : e = ⟨id, src.str, a, note, t⟩ ∨ e ∈ st.cash := by
          simpa [addCash, ha] using he
        rcases he2 with h | h
        · right
          rw [h]
          exact lt_of_not_le ha
        · exact Or.inl h
  · intro e he
    rcases amt with _ | a
    · exact Or.inl he
    · by_cases ha : a ≤ 0
      · exact Or.inl (by simpa [okAddCash, ha] using he)
      · have he2 : e = ⟨id, src.str, a, note, t⟩ ∨ e ∈ st.cash := by
          simpa [okAddCash, ha] using he
        rcases he2 with h | h
        · right
          rw [h]
          exact lt_of_not_le ha
        · exact Or.inl h
  · intro e he
    rcases amt with _ | a
    · exact Or.inl he
    · by_cases ha : a ≤ 0
      · exact Or.inl (by simpa [deductCash, ha] using he)
      · have he2 : e = ⟨id, src.str, -|a|, jsOr note "Purchase deduction", t⟩
            ∨ e ∈ st.cash := by
          simpa [deductCash, ha] using he
        rcases he2 with h | h
        · right
          rw [h]
          have hpos := lt_of_not_le ha
          simp [abs_of_pos hpos]
          linarith
        · exact Or.inl h
  · intro hle
    rcases amt with _ | a
    · exact ⟨rfl, rfl, rfl⟩
    · have ha : a ≤ 0 := by simpa using hle
      refine ⟨?_, ?_, ?_⟩ <;> simp [addCash, okAddCash, deductCash, ha]

/-- C10 witness: the theorem at concrete inputs — a NaN amount leaves the
collection unchanged, and a positive amount inserts only positive-amount
entries on the add path. -/
theorem cash_creation_signs_witness :
    (addCash emptyLedger .GCash none "" "c1" 0).cash = emptyLedger.cash ∧
    (∀ e ∈ (addCash emptyLedger .GCash (some 5) "" "c1" 0).cash,
      e ∈ emptyLedger.cash ∨ 0 < e.amount) ∧
    (∀ e ∈ (deductCash emptyLedger .Cash (some 5) "" "c2" 0).cash,
      e ∈ emptyLedger.cash ∨ e.amount < 0) := by
  have h1 := cash_creation_signs emptyLedger .GCash none "" "c1" 0
  have h2 := cash_creation_signs emptyLedger .GCash (some 5) "" "c1" 0
  have h3 := cash_creation_signs emptyLedger .Cash (some 5) "" "c2" 0
  exact ⟨(h1.2.2.2 (by decide)).1, h2.1, h3.2.2.1⟩

/-! ## Claim C7 — the cash grand total invariant -/

/-- The operations the cash page and the sold page can interleave:
manual add, manual deduct, cash-row delete, add-to-cash-from-buyer, and
the two sold-status updates. -/
inductive CashOp where
  | add (src : CashSource) (amt : Option ℚ) (note id : String) (t : Nat)
  | deduct (src : CashSource) (amt : Option ℚ) (note id : String) (t : Nat)
  | remove (id : String)
  | addFromBuyer (src : CashSource) (amt : Option ℚ) (note id : String) (t : Nat)
  | pay (id : String)
  | payAll (buyer : String)

/-- Dispatch one operation to its handler. -/
def applyCashOp (st : LedgerState) : CashOp → LedgerState
  | .add src amt note id t => addCash st src amt note id t
  | .deduct src amt note id t => deductCash st src amt note id t
  | .remove id => deleteCash st id
  | .addFromBuyer src amt note id t => okAddCash st src amt note id t
  | .pay id => markPaid st id
  | .payAll buyer => markAllPaid st buyer

/-- Run a sequence of operations left to right. -/
def runCashOps (st : LedgerState) : List CashOp → LedgerState
  | [] => st
  | op :: ops => runCashOps (applyCashOp st op) ops

/-- Every entry of the cash ledger carries one of the three sources the
two selects offer. -/
def validSources (cash : List CashEntry) : Prop :=
  ∀ e ∈ cash, e.source = "GCash" ∨ e.source = "SeaBank" ∨ e.source = "Cash"

/-- When every entry's source is one of the three buckets, the sum of the
three per-source buckets is the sum of all amounts. -/
theorem onHandTotal_eq_cashSum (l : List CashEntry) (h : validSources l) :
    onHandTotal l = cashSum l := by
  induction l with
  | nil => simp [onHandTotal, totalForSource, cashSum]
  | cons e l ih =>
    have he := h e (by simp)
    have hl : validSources l := fun x hx => h x (List.mem_cons_of_mem _ hx)
    have ihl := ih hl
    unfold onHandTotal at ihl ⊢
    simp only [totalForSource, cashSum]
    rcases he with h1 | h1 | h1 <;> rw [h1] <;> simp <;> linarith

/-- Each operation preserves validity of the cash sources. -/
theorem applyCashOp_preserves_validSources (st : LedgerState) (op : CashOp)
    (h : validSources st.cash) : validSources (applyCashOp st op).cash := by
  cases op with
  | add src amt note id t =>
    intro e he
    rcases amt with _ | a
    · exact h e he
    · by_cases ha : a ≤ 0
      · exact h e (by simpa [applyCashOp, addCash, ha] using he)
      · have he2 : e = ⟨id, src.str, a, note, t⟩ ∨ e ∈ st.cash := by
          simpa [applyCashOp, addCash, ha] using he
        rcases he2 with h2 | h2
        · rw [h2]
          cases src <;> simp [CashSource.str]
        · exact h e h2
  | deduct src amt note id t =>
    intro e he
    rcases amt with _ | a
    · exact h e he
    · by_cases ha : a ≤ 0
      · exact h e (by simpa [applyCashOp, deductCash, ha] using he)
      · have he2 : e = ⟨id, src.str, -|a|, jsOr note "Purchase deduction", t⟩
            ∨ e ∈ st.cash := by
          simpa [applyCashOp, deductCash, ha] using he
        rcases he2 with h2 | h2
        · rw [h2]
          cases src <;> simp [CashSource.str]
        · exact h e h2
  | addFromBuyer src amt note id t =>
    intro e he
    rcases amt with _ | a
    · exact h e he
    · by_cases ha : a ≤ 0
      · exact h e (by simpa [applyCashOp, okAddCash, ha] using he)
      · have he2 : e = ⟨id, src.str, a, note, t⟩ ∨ e ∈ st.cash := by
          simpa [applyCashOp, okAddCash, ha] using he
        rcases he2 with h2 | h2
        · rw [h2]
          cases src <;> simp [CashSource.str]
        · exact h e h2
  | remove id =>
    intro e he
    simp only [applyCashOp, deleteCash] at he
    rcases hext : extractFirst (fun x => x.id = id) st.cash with _ | pr
    · rw [hext] at he
      exact h e he
    · rw [hext] at he
      obtain ⟨hp, l1, l2, hsplit, hrest⟩ :=
        extractFirst_split _ _ pr.1 pr.2 (by rw [hext])
      have hmem : e ∈ st.cash := by
        rw [hsplit]
        have : e ∈ l1 ++ l2 := by rw [← hrest]; exact he
        rcases List.mem_append.mp this with h2 | h2
        · exact List.mem_append.mpr (Or.inl h2)
        · exact List.mem_append.mpr (Or.inr (List.mem_cons_of_mem _ h2))
      exact h e hmem
  | pay id =>
    intro e he
    have : (applyCashOp st (.pay id)).cash = st.cash := by
      simp only [applyCashOp, markPaid]
      rcases setFirstPaid id st.sold with _ | l <;> rfl
    rw [this] at he
    exact h e he
  | payAll buyer =>
    intro e he
    have : (applyCashOp st (.payAll buyer)).cash = st.cash := by
      simp only [applyCashOp, markAllPaid]
      by_cases hb : st.sold.any (needsPayUpdate buyer) <;> simp [hb]
    rw [this] at he
    exact h e he

/-- Running any operation sequence preserves validity of the sources. -/
theorem runCashOps_preserves_validSources (ops : List CashOp)
    (st : LedgerState) (h : validSources st.cash) :
    validSources (runCashOps st ops).cash := by
  induction ops generalizing st with
  | nil => exact h
  | cons op ops ih =>
    exact ih _ (applyCashOp_preserves_validSources st op h)

/-- The paid and pending revenues partition the total sold value. -/
theorem paid_add_pending (sold : List SoldRecord) :
    paidRevenue sold + pendingRevenue sold = priceSum sold := by
  induction sold with
  | nil => simp [paidRevenue, pendingRevenue, priceSum]
  | cons r l ih =>
    unfold paidRevenue pendingRevenue at ih ⊢
    by_cases hr : isPaidStatus r.status <;>
      simp [List.filter_cons, hr, priceSum] <;> linarith

/-- C7: from any starting state whose cash entries carry one of the three
offered sources (in particular any state reachable from the empty ledger),
after any interleaving of cash add/deduct, cash delete,
add-to-cash-from-buyer and sold-status operations, the grand total
reported by the cash page equals the sum of all on-hand cash amounts plus
the sum of prices of sold records with status Paid; pending revenue is the
separately reported remainder of the total sold value and is not included
in the grand total. -/
theorem cash_grand_total_invariant (init : LedgerState) (ops : List CashOp)
    (h : validSources init.cash) :
    grandTotal (runCashOps init ops)
      = cashSum (runCashOps init ops).cash
        + paidRevenue (runCashOps init ops).sold ∧
    paidRevenue (runCashOps init ops).sold
        + pendingRevenue (runCashOps init ops).sold
      = priceSum (runCashOps init ops).sold := by
  have hv := runCashOps_preserves_validSources ops init h
  constructor
  · unfold grandTotal
    rw [onHandTotal_eq_cashSum _ hv]
  · exact paid_add_pending _

/-- C7 witness: the invariant holds at a concrete interleaving run from
the empty ledger — an add of 7, a deduction of 2 and a pay-all. -/
theorem cash_grand_total_invariant_witness :
    validSources emptyLedger.cash ∧
    grandTotal (runCashOps emptyLedger
        [.add .GCash (some 7) "" "a1" 0, .deduct .Cash (some 2) "" "a2" 1,
         .payAll "X"])
      = cashSum (runCashOps emptyLedger
          [.add .GCash (some 7) "" "a1" 0, .deduct .Cash (some 2) "" "a2" 1,
           .payAll "X"]).cash
        + paidRevenue (runCashOps emptyLedger
            [.add .GCash (some 7) "" "a1" 0, .deduct .Cash (some 2) "" "a2" 1,
             .payAll "X"]).sold := by
  have hvs : validSources emptyLedger.cash := by
    intro e he
    simp [emptyLedger] at he
  exact ⟨hvs, (cash_grand_total_invariant emptyLedger
    [.add .GCash (some 7) "" "a1" 0, .deduct .Cash (some 2) "" "a2" 1,
     .payAll "X"] hvs).1⟩

/-! ## Claim C9 — the two remote backup deployments -/

/-- C9 counterexample: the claim says the two handlers behave identically
on every request; with an empty table, GET answers
`{ success: false, backup: null, error: "No backups found" }` from the
Vercel-style deployment but `{ success: true, backup: null }` from the
Netlify-style one, so the deployments are not equivalent. -/
theorem backup_handlers_not_equivalent_cex :
    ¬ vercelHandler ⟨"GET", none⟩ [] 0 0 = netlifyHandler ⟨"GET", none⟩ [] 0 0 := by
  decide

/-- C9 (amended): the two deployments agree on database effects — a POST
with a payload inserts the same row (label defaulted to "manual") in both
— and on the GET response whenever at least one row exists; but they are
not equivalent as HTTP endpoints: the POST response carries
`backup:{id,created_at,label,payload}` in one and `saved:{id,created_at}`
in the other, OPTIONS is a 200 preflight in one and a 405 in the other,
and any other method gets a JSON 405 body in one and a plain-text 405 body
in the other. -/
theorem backup_handlers_partial_equiv (db : List BackupRow)
    (newId newTime : Nat) (p : String) (lab : Option String) (r : BackupRow)
    (hr : latestBackup db = some r) :
    (vercelHandler ⟨"GET", none⟩ db newId newTime).1
      = (netlifyHandler ⟨"GET", none⟩ db newId newTime).1 ∧
    (vercelHandler ⟨"POST", some ⟨some p, lab⟩⟩ db newId newTime).2
      = (netlifyHandler ⟨"POST", some ⟨some p, lab⟩⟩ db newId newTime).2 ∧
    (netlifyHandler ⟨"POST", some ⟨some p, lab⟩⟩ db newId newTime).2
      = db ++ [⟨newId, newTime, lab.getD "manual", some p⟩] ∧
    ¬ (vercelHandler ⟨"POST", some ⟨some p, lab⟩⟩ db newId newTime).1
      = (netlifyHandler ⟨"POST", some ⟨some p, lab⟩⟩ db newId newTime).1 ∧
    (vercelHandler ⟨"OPTIONS", none⟩ db newId newTime).1.status = 200 ∧
    (netlifyHandler ⟨"OPTIONS", none⟩ db newId newTime).1.status = 405 ∧
    ¬ (vercelHandler ⟨"PUT", none⟩ db newId newTime).1
      = (netlifyHandler ⟨"PUT", none⟩ db newId newTime).1 := by
  refine ⟨?_, ?_, ?_, ?_, ?_, ?_, ?_⟩
  · simp [vercelHandler, netlifyHandler, hr]
  · simp [vercelHandler, netlifyHandler]
  · simp [netlifyHandler]
  · simp [vercelHandler, netlifyHandler]
  · simp [vercelHandler]
  · simp [netlifyHandler]
  · simp [vercelHandler, netlifyHandler]

/-- C9 witness: the amended theorem at a one-row table: both deployments
answer the same GET, both insert the same POST row, and the POST responses
still differ. -/
theorem backup_handlers_partial_equiv_witness :
    latestBackup [(⟨1, 5, "manual", some "snap"⟩ : BackupRow)]
      = some ⟨1, 5, "manual", some "snap"⟩ ∧
    (vercelHandler ⟨"GET", none⟩ [⟨1, 5, "manual", some "snap"⟩] 2 9).1
      = (netlifyHandler ⟨"GET", none⟩ [⟨1, 5, "manual", some "snap"⟩] 2 9).1 ∧
    ¬ (vercelHandler ⟨"POST", some ⟨some "snap2", none⟩⟩
          [⟨1, 5, "manual", some "snap"⟩] 2 9).1
      = (netlifyHandler ⟨"POST", some ⟨some "snap2", none⟩⟩
          [⟨1, 5, "manual", some "snap"⟩] 2 9).1 := by
  have h := backup_handlers_partial_equiv [⟨1, 5, "manual", some "snap"⟩]
    2 9 "snap2" none ⟨1, 5, "manual", some "snap"⟩ (by rfl)
  exact ⟨rfl, h.1, h.2.2.2.1⟩
